import Mathlib

/-!
Shallow embedding of the Wayland controller-interface core
(`Source/Core/InputCommon/ControllerInterface/Wayland/Wayland.{h,cpp}`).

Modelling conventions:
* `float`/`double` state (cursor, scroll accumulators, filtered axes) is
  embedded as exact rational arithmetic (`ℚ`).
* `uint32_t` values are embedded as `Nat` with explicit `% 2^32` where the
  C++ semantics wraps; a left shift whose count may reach 32 (undefined
  behaviour in C++) is totalised by reducing the shifted value mod `2^32`.
* External libwayland/libxkbcommon calls are embedded by their observable
  outcome: a roundtrip's dispatch result is an `Int` parameter, a keymap
  transfer is the `Option Keymap` outcome of `xkb_keymap_new_from_buffer`
  (`none` covers a non-XKB format, a failed `mmap`, or a failed compile),
  and `xkb_state_key_get_syms` / `xkb_keysym_get_name` are the finite
  lookup tables carried by a `Keymap` value.
* The keyboard-key handler writes through `m_state.keyboard` (a heap
  byte array) with no bounds or null check in the C++; the embedding makes
  it `Option`-valued, `none` standing for the out-of-bounds/null access.
-/

namespace WaylandCIFace

/-- `MOUSE_AXIS_SMOOTHING` from Wayland.cpp (1.5f). -/
def MOUSE_AXIS_SMOOTHING : ℚ := 3 / 2

/-- `WL_SEAT_CAPABILITY_POINTER` bit. -/
def WL_SEAT_CAPABILITY_POINTER : Nat := 1

/-- `WL_SEAT_CAPABILITY_KEYBOARD` bit. -/
def WL_SEAT_CAPABILITY_KEYBOARD : Nat := 2

/-- `WL_POINTER_AXIS_HORIZONTAL_SCROLL` (= 1 in the Wayland protocol). -/
def WL_POINTER_AXIS_HORIZONTAL_SCROLL : Nat := 1

/-- `WL_POINTER_AXIS_VERTICAL_SCROLL` (= 0 in the Wayland protocol). -/
def WL_POINTER_AXIS_VERTICAL_SCROLL : Nat := 0

/-- `XKB_KEY_NoSymbol` sentinel (= 0). -/
def XKB_KEY_NoSymbol : Nat := 0

/-- One past the largest `uint32_t` value. -/
def U32 : Nat := 2 ^ 32

/-- `Common::Vec2`, embedded over exact rationals. -/
structure Vec2 where
  x : ℚ
  y : ℚ
  deriving DecidableEq

/-- Observable content of a compiled `xkb_keymap` (+ its `xkb_state`):
keycode range, first keysym per keycode (`xkb_state_key_get_syms`), and
keysym names (`xkb_keysym_get_name`, `none` = lookup failure). -/
structure Keymap where
  min_keycode : Nat
  max_keycode : Nat
  syms : List (Nat × Nat)
  names : List (Nat × String)
  deriving DecidableEq

/-- `Seat::State`: the byte bitmap of pressed keycodes (`none` = the
`unique_ptr` is null, i.e. never allocated), the button bitmask, the cursor
position, the raw scroll accumulator and the filtered scroll value. -/
structure SeatState where
  keyboard : Option (List Nat)
  buttons : Nat
  cursor : Vec2
  accum_axis : Vec2
  axis : Vec2
  deriving DecidableEq

/-- Identity of one synthesized control (`Seat::Key` / `Button` / `Cursor`
/ `Axis`), carrying the immutable construction data of each view. -/
inductive Control where
  | key (keyname : String) (keycode : Nat)
  | button (index : Nat)
  | cursor (index : Nat) (positive : Bool)
  | axis (index : Nat) (positive : Bool)
  deriving DecidableEq

/-- The fields of `ciface::Wayland::Seat` that the event handlers touch.
Protocol bindings (`wl_pointer*`, `wl_keyboard*`) are embedded by their
null/non-null status; the `xkb_state` by whether it was created
(`m_keystate`), which in the code happens exactly when the keymap
compiled. `inputs` is the synthesized control list built by `AddInput`. -/
structure Seat where
  m_seat_id : Nat
  m_pointer : Bool
  m_keyboard : Bool
  m_keymap : Option Keymap
  m_keystate : Bool
  m_state : SeatState
  name : String
  m_in_surface : Bool
  m_constructed : Bool
  m_valid : Bool
  inputs : List Control
  deriving DecidableEq

/-- `Seat::IsValid`. -/
def Seat.IsValid (s : Seat) : Bool := s.m_valid

/-- `Seat::wl_pointer_listener_enter` (the `surface == m_surface`
comparison is embedded as the boolean `same_surface`). -/
def Seat.wl_pointer_listener_enter (s : Seat) (same_surface : Bool) : Seat :=
  if same_surface then { s with m_in_surface := true } else s

/-- `Seat::wl_pointer_listener_leave`. -/
def Seat.wl_pointer_listener_leave (s : Seat) (same_surface : Bool) : Seat :=
  if same_surface then { s with m_in_surface := false } else s

/-- `Seat::wl_pointer_listener_motion`. `win_width`/`win_height` are the
`FetchWindowSize` outputs, `scale_x`/`scale_y` the `GetWindowInputScale`
factors, `x`/`y` the `wl_fixed_to_double` surface coordinates. -/
def Seat.wl_pointer_listener_motion (s : Seat) (win_width win_height : Int)
    (scale_x scale_y x y : ℚ) : Seat :=
  if s.m_in_surface = false then s
  else if 0 < win_width ∧ 0 < win_height then
    { s with m_state := { s.m_state with cursor :=
        ⟨(x / (win_width : ℚ) * 2 - 1) * scale_x,
         (y / (win_height : ℚ) * 2 - 1) * scale_y⟩ } }
  else
    { s with m_state := { s.m_state with cursor := ⟨0, 0⟩ } }

/-- Bit position used by `Seat::wl_pointer_listener_button`: the
`uint32_t` subtraction `button - 0x110`. -/
def buttonBit (button : Nat) : Nat := (button % U32 + U32 - 0x110) % U32

/-- `Seat::wl_pointer_listener_button`: press sets, release clears,
bit `button - 0x110` of the `uint32_t` bitmask. -/
def Seat.wl_pointer_listener_button (s : Seat) (button : Nat) (pressed : Bool) : Seat :=
  let i := buttonBit button
  let b := if pressed then (s.m_state.buttons ||| ((1 <<< i) % U32)) % U32
           else s.m_state.buttons &&& ((U32 - 1) ^^^ ((1 <<< i) % U32))
  { s with m_state := { s.m_state with buttons := b } }

/-- `Seat::wl_pointer_listener_axis`: accumulates the delta on the
horizontal or vertical raw accumulator. -/
def Seat.wl_pointer_listener_axis (s : Seat) (ax : Nat) (value : ℚ) : Seat :=
  if ax = WL_POINTER_AXIS_HORIZONTAL_SCROLL then
    { s with m_state := { s.m_state with accum_axis :=
        { s.m_state.accum_axis with x := s.m_state.accum_axis.x + value } } }
  else
    { s with m_state := { s.m_state with accum_axis :=
        { s.m_state.accum_axis with y := s.m_state.accum_axis.y + value } } }

/-- `Seat::wl_keyboard_listener_keymap`. After construction the device is
invalidated. Before construction, `ClearKeymap()` followed by the compile
attempt leaves `m_keymap` holding the compile outcome `km` and
`m_keystate` set iff it succeeded. -/
def Seat.wl_keyboard_listener_keymap (s : Seat) (km : Option Keymap) : Seat :=
  if s.m_constructed then { s with m_valid := false }
  else { s with m_keymap := km, m_keystate := km.isSome }

/-- One byte of the pressed-key bitmap after
`|= 1 << (key % 8)` / `&= ~(1 << (key % 8))` on a `char`. -/
def keyBitSet (b : Nat) (pos : Nat) (pressed : Bool) : Nat :=
  if pressed then b ||| (1 <<< pos) else b &&& (255 ^^^ (1 <<< pos))

/-- `Seat::wl_keyboard_listener_key`: writes bit `key + 8` of
`m_state.keyboard`. The C++ performs the array access unconditionally;
the embedding returns `none` on the null-pointer / out-of-bounds access. -/
def Seat.wl_keyboard_listener_key (s : Seat) (key : Nat) (pressed : Bool) : Option Seat :=
  let k := (key % U32 + 8) % U32
  match s.m_state.keyboard with
  | none => none
  | some bytes =>
    if k / 8 < bytes.length then
      let b1 := keyBitSet (bytes.getD (k / 8) 0) (k % 8) pressed
      some { s with m_state := { s.m_state with keyboard := some (bytes.set (k / 8) b1) } }
    else none

/-- `Seat::Key::Key` name resolution: first keysym of the keycode
(`XKB_KEY_NoSymbol` when there is none), uppercase fold of lowercase
ASCII letters, rejection of `NoSymbol`/out-of-range keysyms, then
`xkb_keysym_get_name` into a 64-byte buffer (name kept only when the
returned size is `< 64`). -/
def Key.resolveName (km : Keymap) (keycode : Nat) : String :=
  let keysym0 := (km.syms.lookup keycode).getD XKB_KEY_NoSymbol
  let keysym := if 97 ≤ keysym0 ∧ keysym0 ≤ 122 then keysym0 - 32 else keysym0
  if keysym = XKB_KEY_NoSymbol ∨ 0x0110ffff < keysym then ""
  else
    match km.names.lookup keysym with
    | none => ""
    | some n => if n.length < 64 then n else ""

/-- The 32 `Button`, 4 `Cursor` and 4 `Axis` controls synthesized by the
pointer branch of `Seat::wl_seat_listener_capabilities`. -/
def pointerControls : List Control :=
  ((List.range 32).map Control.button) ++
  ((List.range 4).map fun i =>
      Control.cursor (if i &&& 2 ≠ 0 then 1 else 0) (decide (i &&& 1 ≠ 0))) ++
  ((List.range 4).map fun i =>
      Control.axis (if i &&& 2 ≠ 0 then 1 else 0) (decide (i &&& 1 ≠ 0)))

/-- The `Key` controls synthesized by the keyboard branch: one per
keycode in `[min_keycode, max_keycode]` whose resolved name is nonempty. -/
def keyControls (km : Keymap) : List Control :=
  (List.range' km.min_keycode (km.max_keycode + 1 - km.min_keycode)).filterMap fun i =>
    let kn := Key.resolveName km i
    if kn.length ≠ 0 then some (Control.key kn i) else none

/-- `Seat::wl_seat_listener_capabilities`. After construction only the
validity flag may drop; before construction the pointer and keyboard
branches acquire their bindings and synthesize controls. The keyboard
branch's nested `Roundtrip()` delivers the keymap event, embedded here by
running the keymap handler on its compile outcome `km`. -/
def Seat.wl_seat_listener_capabilities (s : Seat) (capabilities : Nat)
    (km : Option Keymap) : Seat :=
  if s.m_constructed then
    if (s.m_pointer = true ∧ capabilities &&& WL_SEAT_CAPABILITY_POINTER = 0) ∨
       (s.m_keyboard = true ∧ capabilities &&& WL_SEAT_CAPABILITY_KEYBOARD = 0) then
      { s with m_valid := false }
    else s
  else
    let s1 := if s.m_pointer = false ∧ capabilities &&& WL_SEAT_CAPABILITY_POINTER ≠ 0 then
        { s with m_pointer := true, inputs := s.inputs ++ pointerControls }
      else s
    if s1.m_keyboard = false ∧ capabilities &&& WL_SEAT_CAPABILITY_KEYBOARD ≠ 0 then
      let s2 := Seat.wl_keyboard_listener_keymap { s1 with m_keyboard := true } km
      match s2.m_keymap with
      | none => s2
      | some k =>
        let s3 := if 0 < k.max_keycode then
            { s2 with m_state := { s2.m_state with
                keyboard := some (List.replicate (k.max_keycode / 8 + 1) 0) } }
          else s2
        { s3 with inputs := s3.inputs ++ keyControls k }
    else s1

/-- `Seat::wl_seat_listener_name`. -/
def Seat.wl_seat_listener_name (s : Seat) (new_name : String) : Seat :=
  if new_name.length ≠ 0 then { s with name := new_name } else { s with name := "Seat" }

/-- One asynchronous protocol event delivered to a `Seat` during a
dispatch, carrying the ambient data each C++ handler reads. -/
inductive Event where
  | capabilities (caps : Nat) (km : Option Keymap)
  | seatName (n : String)
  | keymap (km : Option Keymap)
  | key (code : Nat) (pressed : Bool)
  | button (code : Nat) (pressed : Bool)
  | motion (win_width win_height : Int) (scale_x scale_y x y : ℚ)
  | axis (ax : Nat) (value : ℚ)
  | enter (same_surface : Bool)
  | leave (same_surface : Bool)
  deriving DecidableEq

/-- Dispatch of one event to the matching `Seat` handler. The key
handler's out-of-bounds/null outcome (`none`) is totalised as a no-op
here; the `Option`-valued handler itself is what the safety analysis
inspects. -/
def Seat.step (s : Seat) : Event → Seat
  | .capabilities caps km => s.wl_seat_listener_capabilities caps km
  | .seatName n => s.wl_seat_listener_name n
  | .keymap km => s.wl_keyboard_listener_keymap km
  | .key code pressed => (s.wl_keyboard_listener_key code pressed).getD s
  | .button code pressed => s.wl_pointer_listener_button code pressed
  | .motion w h sx sy x y => s.wl_pointer_listener_motion w h sx sy x y
  | .axis ax v => s.wl_pointer_listener_axis ax v
  | .enter same_surface => s.wl_pointer_listener_enter same_surface
  | .leave same_surface => s.wl_pointer_listener_leave same_surface

/-- `WaylandProxy` fields: null/non-null status of the display, queue,
wrapper and registry, plus the seat id → negotiated version map. -/
structure WaylandProxy where
  m_display : Bool
  m_queue : Bool
  m_display_wrapper : Bool
  m_registry : Bool
  m_seat_ids : List (Nat × Nat)
  deriving DecidableEq

/-- `WaylandProxy::Finish`: clears seat bookkeeping and releases the
registry, display wrapper and queue. -/
def WaylandProxy.Finish (p : WaylandProxy) : WaylandProxy :=
  { p with m_seat_ids := [], m_registry := false, m_display_wrapper := false,
           m_queue := false, m_display := false }

/-- `WaylandProxy::HasSeatId`. -/
def WaylandProxy.HasSeatId (p : WaylandProxy) (seat_id : Nat) : Bool :=
  (p.m_seat_ids.lookup seat_id).isSome

/-- `WaylandProxy::Roundtrip`. `sync_result` is the outcome of
`RoundtripSync()` (the dispatch loop; negative = error). On an error the
proxy tears itself down via `Finish()`. -/
def WaylandProxy.Roundtrip (p : WaylandProxy) (sync_result : Int) : WaylandProxy :=
  if p.m_queue then (if sync_result < 0 then p.Finish else p) else p

/-- The smoothing filter applied per axis by `Seat::UpdateInput`:
`v' = (v*S + d) / (S + 1)`. -/
def smooth (S d v : ℚ) : ℚ := (v * S + d) / (S + 1)

/-- `Seat::UpdateInput`: one `Roundtrip()`, then the in-place smoothing
sequence (`*= S`, `+= accum`, `/= S + 1`) on each axis, then the raw
accumulator reset, then the seat-liveness check against the proxy. -/
def Seat.UpdateInput (s : Seat) (p : WaylandProxy) (sync_result : Int) :
    Seat × WaylandProxy :=
  let p1 := p.Roundtrip sync_result
  let st := s.m_state
  let ax1 := st.axis.x * MOUSE_AXIS_SMOOTHING
  let ax2 := ax1 + st.accum_axis.x
  let ax3 := ax2 / (MOUSE_AXIS_SMOOTHING + 1)
  let ay1 := st.axis.y * MOUSE_AXIS_SMOOTHING
  let ay2 := ay1 + st.accum_axis.y
  let ay3 := ay2 / (MOUSE_AXIS_SMOOTHING + 1)
  let st1 := { st with axis := ⟨ax3, ay3⟩, accum_axis := ⟨0, 0⟩ }
  let valid1 := if p1.HasSeatId s.m_seat_id then s.m_valid else false
  ({ s with m_state := st1, m_valid := valid1 }, p1)

/-- One host-observable operation on a constructed device: an event
delivered during some dispatch, or an `UpdateInput` poll. -/
inductive Op where
  | ev (e : Event)
  | update (sync_result : Int)

/-- Applies one `Op` to a seat/proxy pair. -/
def applyOp : Seat × WaylandProxy → Op → Seat × WaylandProxy
  | (s, p), .ev e => (s.step e, p)
  | (s, p), .update r => s.UpdateInput p r

/-- Field state of a `Seat` as initialized by the member initializers of
`Seat::Seat` before any event is dispatched. -/
def Seat.initial (seat_id : Nat) : Seat :=
  { m_seat_id := seat_id, m_pointer := false, m_keyboard := false, m_keymap := none,
    m_keystate := false,
    m_state := { keyboard := none, buttons := 0, cursor := ⟨0, 0⟩,
                 accum_axis := ⟨0, 0⟩, axis := ⟨0, 0⟩ },
    name := "Seat", m_in_surface := false, m_constructed := false, m_valid := true,
    inputs := [] }

/-- `Seat::Seat`: the constructor's `Roundtrip()` dispatches the initial
events (`ctor_events`), after which `m_constructed` is set. -/
def Seat.construct (seat_id : Nat) (ctor_events : List Event) : Seat :=
  { ctor_events.foldl Seat.step (Seat.initial seat_id) with m_constructed := true }

/-- Whether an event is a seat-capability or keymap-transfer event. -/
def Event.isCapOrKeymap : Event → Bool
  | .capabilities _ _ => true
  | .keymap _ => true
  | _ => false

/-- The uppercase fold performed by `Seat::Key::Key` on lowercase ASCII
letter keysyms (`keysym -= 32` for 97–122), as a named function. -/
def foldSym (sym : Nat) : Nat := if 97 ≤ sym ∧ sym ≤ 122 then sym - 32 else sym

/-- Total horizontal raw scroll delta of a batch of axis events
(`(axis code, wl_fixed_to_double value)` pairs). -/
def hsum : List (Nat × ℚ) → ℚ
  | [] => 0
  | (a, v) :: t => (if a = WL_POINTER_AXIS_HORIZONTAL_SCROLL then v else 0) + hsum t

/-- Total vertical raw scroll delta of a batch of axis events. -/
def vsum : List (Nat × ℚ) → ℚ
  | [] => 0
  | (a, v) :: t => (if a = WL_POINTER_AXIS_HORIZONTAL_SCROLL then 0 else v) + vsum t

/-- Delivery of a batch of `wl_pointer` axis events within one poll
cycle. -/
def applyAxisEvents (s : Seat) (evs : List (Nat × ℚ)) : Seat :=
  evs.foldl (fun s1 e => s1.wl_pointer_listener_axis e.1 e.2) s

/-- Fixture: a live proxy advertising seat id 3 at version 4. -/
def pEx : WaylandProxy :=
  { m_display := true, m_queue := true, m_display_wrapper := true, m_registry := true,
    m_seat_ids := [(3, 4)] }

/-- Fixture: an already-invalidated seat. -/
def sInvalidEx : Seat := { Seat.initial 3 with m_valid := false }

/-- Fixture: a seat whose button bitmask has bit 0 (code 0x110) set. -/
def sBtnEx : Seat :=
  { Seat.initial 0 with m_state := { (Seat.initial 0).m_state with buttons := 1 } }

/-- Fixture: a seat whose button bitmask has bit 2 set, bit 0 clear. -/
def sBtn4Ex : Seat :=
  { Seat.initial 0 with m_state := { (Seat.initial 0).m_state with buttons := 4 } }

/-- Fixture: a keymap mapping keycode 10 to keysym 97 (lowercase a),
keycode 11 to `NoSymbol`, with a name only for keysym 65 (A). -/
def kmLetterEx : Keymap :=
  { min_keycode := 10, max_keycode := 13, syms := [(10, 97), (11, 0)],
    names := [(65, "A")] }

/-- Fixture: a keymap with keycode range up to 255 and no named symbols. -/
def kmWideEx : Keymap := { min_keycode := 8, max_keycode := 255, syms := [], names := [] }

/-- Fixture: a seat constructed with the keyboard capability and the
`kmWideEx` keymap, so its key bitmap holds `255 / 8 + 1 = 32` bytes. -/
def sKbdEx : Seat :=
  Seat.construct 3 [Event.capabilities WL_SEAT_CAPABILITY_KEYBOARD (some kmWideEx)]

/-- Fixture: a second seat constructed like `sKbdEx` (distinct id). -/
def sBoundsEx : Seat :=
  Seat.construct 4 [Event.capabilities WL_SEAT_CAPABILITY_KEYBOARD (some kmWideEx)]

/-! Helper lemmas. -/

theorem Seat.step_constructed_capkeymap (s : Seat) (e : Event)
    (hc : s.m_constructed = true) (he : e.isCapOrKeymap = true) :
    ∃ b, s.step e = { s with m_valid := b } := by
  obtain ⟨sid, pt, kb, kmp, ks, st, nm, insf, ctd, vld, inp⟩ := s
  simp only at hc
  subst hc
  cases e with
  | capabilities caps km =>
    refine ⟨(Seat.step ⟨sid, pt, kb, kmp, ks, st, nm, insf, true, vld, inp⟩
        (.capabilities caps km)).m_valid, ?_⟩
    simp only [Seat.step, Seat.wl_seat_listener_capabilities, if_true]
    split <;> rfl
  | keymap km =>
    refine ⟨false, ?_⟩
    simp only [Seat.step, Seat.wl_keyboard_listener_keymap, if_true]
  | seatName n => simp [Event.isCapOrKeymap] at he
  | key c pr => simp [Event.isCapOrKeymap] at he
  | button c pr => simp [Event.isCapOrKeymap] at he
  | motion a b c d f g => simp [Event.isCapOrKeymap] at he
  | axis a v => simp [Event.isCapOrKeymap] at he
  | enter ss => simp [Event.isCapOrKeymap] at he
  | leave ss => simp [Event.isCapOrKeymap] at he

theorem Seat.foldl_constructed_capkeymap (s : Seat) (evs : List Event)
    (hc : s.m_constructed = true) (he : ∀ e ∈ evs, e.isCapOrKeymap = true) :
    ∃ b, evs.foldl Seat.step s = { s with m_valid := b } := by
  induction evs generalizing s with
  | nil => exact ⟨s.m_valid, rfl⟩
  | cons e t ih =>
    obtain ⟨b1, hb1⟩ := Seat.step_constructed_capkeymap s e hc (he e (by simp))
    have hc1 : (s.step e).m_constructed = true := by rw [hb1]; exact hc
    obtain ⟨b2, hb2⟩ := ih (s.step e) hc1 (fun e2 h2 => he e2 (by simp [h2]))
    refine ⟨b2, ?_⟩
    rw [List.foldl_cons, hb2, hb1]

theorem Seat.step_valid_false (s : Seat) (e : Event) (h : s.m_valid = false) :
    (s.step e).m_valid = false := by
  cases e <;>
    simp only [Seat.step, Seat.wl_seat_listener_capabilities, Seat.wl_seat_listener_name,
      Seat.wl_keyboard_listener_keymap, Seat.wl_keyboard_listener_key,
      Seat.wl_pointer_listener_button, Seat.wl_pointer_listener_motion,
      Seat.wl_pointer_listener_axis, Seat.wl_pointer_listener_enter,
      Seat.wl_pointer_listener_leave] <;>
    (repeat' split) <;> simp_all

theorem Seat.updateInput_valid_false (s : Seat) (p : WaylandProxy) (r : Int)
    (h : s.m_valid = false) : ((s.UpdateInput p r).1).m_valid = false := by
  simp only [Seat.UpdateInput]
  split <;> simp [h]

theorem Seat.updateInput_eq (s : Seat) (p : WaylandProxy) (r : Int) :
    s.UpdateInput p r =
      ({ s with
          m_state := { s.m_state with
            axis := ⟨smooth MOUSE_AXIS_SMOOTHING s.m_state.accum_axis.x s.m_state.axis.x,
                     smooth MOUSE_AXIS_SMOOTHING s.m_state.accum_axis.y s.m_state.axis.y⟩,
            accum_axis := ⟨0, 0⟩ },
          m_valid := if (p.Roundtrip r).HasSeatId s.m_seat_id then s.m_valid else false },
        p.Roundtrip r) := rfl

theorem applyAxisEvents_eq (s : Seat) (evs : List (Nat × ℚ)) :
    applyAxisEvents s evs =
      { s with m_state := { s.m_state with accum_axis :=
          ⟨s.m_state.accum_axis.x + hsum evs, s.m_state.accum_axis.y + vsum evs⟩ } } := by
  induction evs generalizing s with
  | nil => simp [applyAxisEvents, hsum, vsum]
  | cons e t ih =>
    obtain ⟨a, v⟩ := e
    have h1 : applyAxisEvents s ((a, v) :: t) =
        applyAxisEvents (s.wl_pointer_listener_axis a v) t := rfl
    rw [h1, ih]
    simp only [Seat.wl_pointer_listener_axis, hsum, vsum]
    split <;> simp [add_assoc]

theorem smooth_sub (S d w : ℚ) (hS : 0 < S) :
    smooth S d w - d = S / (S + 1) * (w - d) := by
  have h1 : S + 1 ≠ 0 := by positivity
  field_simp [smooth]
  ring

theorem smooth_iter_sub (S d v : ℚ) (hS : 0 < S) (n : ℕ) :
    (smooth S d)^[n] v - d = (S / (S + 1)) ^ n * (v - d) := by
  induction n with
  | zero => simp
  | succ m ih =>
    rw [Function.iterate_succ_apply', smooth_sub S d _ hS, ih, pow_succ]
    ring

theorem buttonBit_eq (code : Nat) (h1 : 0x110 ≤ code) (h2 : code < U32) :
    buttonBit code = code - 0x110 := by
  simp only [buttonBit, U32] at *
  omega

theorem lor_mask_cancel (b i : Nat) (hi : i < 32) (hb : b < 2 ^ 32)
    (h4 : b.testBit i = false) :
    (b ||| 2 ^ i) &&& ((2 ^ 32 - 1) ^^^ 2 ^ i) = b := by
  apply Nat.eq_of_testBit_eq
  intro j
  simp only [Nat.testBit_and, Nat.testBit_or, Nat.testBit_xor, Nat.testBit_two_pow,
    Nat.testBit_two_pow_sub_one]
  rcases eq_or_ne i j with hij | hij
  · subst hij
    simp [h4, hi]
  · by_cases hj : j < 32
    · simp [hij, hj]
    · have hbj : b.testBit j = false :=
        Nat.testBit_lt_two_pow
          (lt_of_lt_of_le hb (Nat.pow_le_pow_right (by norm_num) (by omega)))
      simp [hij, hj, hbj]

theorem resolveName_foldSym (km : Keymap) (keycode : Nat) :
    Key.resolveName km keycode =
      (if foldSym ((km.syms.lookup keycode).getD XKB_KEY_NoSymbol) = XKB_KEY_NoSymbol ∨
          0x0110ffff < foldSym ((km.syms.lookup keycode).getD XKB_KEY_NoSymbol) then ""
       else
         match km.names.lookup (foldSym ((km.syms.lookup keycode).getD XKB_KEY_NoSymbol)) with
         | none => ""
         | some n => if n.length < 64 then n else "") := rfl

/-! Claim theorems. -/

/-- C1: for every Seat device with `m_constructed = true` and every
sequence of seat-capability and keymap events delivered afterwards, the
synthesized control list is unchanged (hence unchanged in size and in
element identity), and the whole device state may differ from the
original only in its validity flag. -/
theorem controls_frozen_after_construction (s : Seat) (evs : List Event)
    (hc : s.m_constructed = true) (he : ∀ e ∈ evs, e.isCapOrKeymap = true) :
    (evs.foldl Seat.step s).inputs = s.inputs ∧
    evs.foldl Seat.step s = { s with m_valid := (evs.foldl Seat.step s).m_valid } := by
  obtain ⟨b, hb⟩ := Seat.foldl_constructed_capkeymap s evs hc he
  refine ⟨?_, ?_⟩ <;> simp [hb]

/-- C1 witness: a concrete constructed seat with pointer controls, hit by
a capability-loss event and a keymap event, keeps its control list. -/
theorem controls_frozen_witness :
    ((Seat.construct 7 [Event.capabilities 1 none]).m_constructed = true) ∧
    (∀ e ∈ [Event.capabilities 0 none, Event.keymap none], e.isCapOrKeymap = true) ∧
    (([Event.capabilities 0 none, Event.keymap none].foldl Seat.step
        (Seat.construct 7 [Event.capabilities 1 none])).inputs =
      (Seat.construct 7 [Event.capabilities 1 none]).inputs) := by
  refine ⟨rfl, by decide, ?_⟩
  exact (controls_frozen_after_construction (Seat.construct 7 [Event.capabilities 1 none])
    [Event.capabilities 0 none, Event.keymap none] rfl (by decide)).1

/-- C2: once `IsValid()` is false, no sequence of further events or
`UpdateInput` calls ever makes it true again: the invalid state is
terminal. -/
theorem invalid_is_terminal (s : Seat) (p : WaylandProxy) (ops : List Op)
    (h : s.IsValid = false) :
    ((ops.foldl applyOp (s, p)).1).IsValid = false := by
  induction ops generalizing s p with
  | nil => exact h
  | cons o t ih =>
    rw [List.foldl_cons]
    cases o with
    | ev e => exact ih (s.step e) p (Seat.step_valid_false s e h)
    | update r =>
      exact ih (s.UpdateInput p r).1 (s.UpdateInput p r).2
        (Seat.updateInput_valid_false s p r h)

/-- C2 witness: an invalidated seat stays invalid across a button event
and an `UpdateInput` poll against a live proxy. -/
theorem invalid_is_terminal_witness :
    sInvalidEx.IsValid = false ∧
    ((([Op.ev (Event.button 0x110 true), Op.update 0].foldl applyOp
        (sInvalidEx, pEx)).1).IsValid = false) :=
  ⟨rfl, invalid_is_terminal _ _ _ rfl⟩

/-- C3: when the dispatch loop inside `Roundtrip()` reports an error
(negative result) and the queue exists, the proxy equals its `Finish()`
teardown — seat map cleared, registry, wrapper and queue released — and
every seat's next `UpdateInput` finds its seat id absent and reports
invalid. -/
theorem roundtrip_error_teardown (p : WaylandProxy) (r : Int)
    (hq : p.m_queue = true) (hr : r < 0) :
    p.Roundtrip r = p.Finish ∧
    (p.Roundtrip r).m_seat_ids = [] ∧
    (p.Roundtrip r).m_registry = false ∧
    (p.Roundtrip r).m_display_wrapper = false ∧
    (p.Roundtrip r).m_queue = false ∧
    ∀ (s : Seat) (r2 : Int),
      (p.Roundtrip r).HasSeatId s.m_seat_id = false ∧
      ((s.UpdateInput (p.Roundtrip r) r2).1).IsValid = false := by
  have h1 : p.Roundtrip r = p.Finish := by simp [WaylandProxy.Roundtrip, hq, hr]
  rw [h1]
  refine ⟨rfl, rfl, rfl, rfl, rfl, ?_⟩
  intro s r2
  constructor
  · rfl
  · simp [Seat.UpdateInput, WaylandProxy.Roundtrip, WaylandProxy.Finish,
      WaylandProxy.HasSeatId, Seat.IsValid]

/-- C3 witness: a live proxy advertising seat 3 torn down by a failed
roundtrip; any seat's next `UpdateInput` reports invalid. -/
theorem roundtrip_error_teardown_witness :
    pEx.m_queue = true ∧
    ((-1 : Int) < 0) ∧
    (pEx.Roundtrip (-1)).m_seat_ids = [] ∧
    ∀ (s : Seat) (r2 : Int),
      ((s.UpdateInput (pEx.Roundtrip (-1)) r2).1).IsValid = false := by
  refine ⟨rfl, by decide, ?_, ?_⟩
  · exact (roundtrip_error_teardown pEx (-1) rfl (by decide)).2.1
  · intro s r2
    exact ((roundtrip_error_teardown pEx (-1) rfl (by decide)).2.2.2.2.2 s r2).2

/-- C4: `UpdateInput` performs one `Roundtrip`, replaces each filtered
axis value `v` by `(v*S + d)/(S + 1)` with `S = MOUSE_AXIS_SMOOTHING =
3/2` and `d` the accumulated raw delta of that axis, zeroes both raw
accumulators, and invalidates the device iff its seat id is no longer
advertised by the post-roundtrip proxy. -/
theorem updateInput_contract (s : Seat) (p : WaylandProxy) (r : Int) :
    s.UpdateInput p r =
      ({ s with
          m_state := { s.m_state with
            axis := ⟨smooth MOUSE_AXIS_SMOOTHING s.m_state.accum_axis.x s.m_state.axis.x,
                     smooth MOUSE_AXIS_SMOOTHING s.m_state.accum_axis.y s.m_state.axis.y⟩,
            accum_axis := ⟨0, 0⟩ },
          m_valid := if (p.Roundtrip r).HasSeatId s.m_seat_id then s.m_valid else false },
        p.Roundtrip r) ∧
    smooth MOUSE_AXIS_SMOOTHING s.m_state.accum_axis.x s.m_state.axis.x =
      (s.m_state.axis.x * (3 / 2) + s.m_state.accum_axis.x) / (3 / 2 + 1) :=
  ⟨Seat.updateInput_eq s p r, rfl⟩

/-- C5: the filtered scroll output after `UpdateInput` following any
batch of axis events equals the output when one event per axis carrying
the batch's per-axis delta sum is delivered instead — it depends only on
the previous filtered value and the per-axis sums. -/
theorem filtered_depends_only_on_sum (s : Seat) (evs : List (Nat × ℚ))
    (p : WaylandProxy) (r : Int) :
    (((applyAxisEvents s evs).UpdateInput p r).1).m_state.axis =
      ((((s.wl_pointer_listener_axis WL_POINTER_AXIS_HORIZONTAL_SCROLL
            (hsum evs)).wl_pointer_listener_axis
          WL_POINTER_AXIS_VERTICAL_SCROLL (vsum evs)).UpdateInput p r).1).m_state.axis := by
  rw [applyAxisEvents_eq]
  simp [Seat.updateInput_eq, Seat.wl_pointer_listener_axis,
    WL_POINTER_AXIS_HORIZONTAL_SCROLL, WL_POINTER_AXIS_VERTICAL_SCROLL]

/-- C6: for any smoothing constant `S > 0` the filter step contracts the
distance to the repeated input `d` by the factor `S/(S+1) < 1`; the smoothing
step of `UpdateInput` is exactly `smooth MOUSE_AXIS_SMOOTHING` on each
axis; and iterating the filter on a constant input `d` converges to `d`:
for every `ε > 0` the distance eventually stays below `ε`. -/
theorem smoothing_filter_converges (S d v ε : ℚ) (hS : 0 < S) (hε : 0 < ε) :
    (∀ w : ℚ, |smooth S d w - d| = S / (S + 1) * |w - d|) ∧
    S / (S + 1) < 1 ∧
    (∀ (s : Seat) (p : WaylandProxy) (r : Int),
      ((s.UpdateInput p r).1).m_state.axis.x =
        smooth MOUSE_AXIS_SMOOTHING s.m_state.accum_axis.x s.m_state.axis.x ∧
      ((s.UpdateInput p r).1).m_state.axis.y =
        smooth MOUSE_AXIS_SMOOTHING s.m_state.accum_axis.y s.m_state.axis.y) ∧
    ∃ N : ℕ, ∀ n, N ≤ n → |(smooth S d)^[n] v - d| < ε := by
  have hS1 : (0:ℚ) < S + 1 := by linarith
  have hr0 : 0 ≤ S / (S + 1) := by positivity
  have hr1 : S / (S + 1) < 1 := by rw [div_lt_one hS1]; linarith
  refine ⟨?_, hr1, fun s p r => ⟨rfl, rfl⟩, ?_⟩
  · intro w
    rw [smooth_sub S d w hS, abs_mul, abs_of_nonneg hr0]
  · have hc0 : 0 ≤ |v - d| := abs_nonneg _
    have hc1 : (0:ℚ) < |v - d| + 1 := by linarith
    obtain ⟨N, hN⟩ :=
      exists_pow_lt_of_lt_one (show (0:ℚ) < ε / (|v - d| + 1) by positivity) hr1
    refine ⟨N, fun n hn => ?_⟩
    calc |(smooth S d)^[n] v - d| = (S / (S + 1)) ^ n * |v - d| := by
          rw [smooth_iter_sub S d v hS n, abs_mul, abs_of_nonneg (pow_nonneg hr0 n)]
      _ ≤ (S / (S + 1)) ^ N * |v - d| :=
          mul_le_mul_of_nonneg_right (pow_le_pow_of_le_one hr0 hr1.le hn) hc0
      _ ≤ (S / (S + 1)) ^ N * (|v - d| + 1) :=
          mul_le_mul_of_nonneg_left (by linarith) (pow_nonneg hr0 N)
      _ < ε / (|v - d| + 1) * (|v - d| + 1) := by
          exact mul_lt_mul_of_pos_right hN hc1
      _ = ε := div_mul_cancel₀ ε (ne_of_gt hc1)

/-- C6 witness: instantiated at the code's constant `S = 3/2`, input
`d = 1`, start `v = 0`, tolerance `ε = 1/10`. -/
theorem smoothing_filter_converges_witness :
    ((0:ℚ) < 3 / 2) ∧ ((0:ℚ) < 1 / 10) ∧
    ((∀ w : ℚ, |smooth (3 / 2) 1 w - 1| = (3 / 2) / (3 / 2 + 1) * |w - 1|) ∧
     (3 / 2 : ℚ) / (3 / 2 + 1) < 1 ∧
     (∀ (s : Seat) (p : WaylandProxy) (r : Int),
       ((s.UpdateInput p r).1).m_state.axis.x =
         smooth MOUSE_AXIS_SMOOTHING s.m_state.accum_axis.x s.m_state.axis.x ∧
       ((s.UpdateInput p r).1).m_state.axis.y =
         smooth MOUSE_AXIS_SMOOTHING s.m_state.accum_axis.y s.m_state.axis.y) ∧
     ∃ N : ℕ, ∀ n, N ≤ n → |(smooth (3 / 2) 1)^[n] 0 - 1| < 1 / 10) :=
  ⟨by norm_num, by norm_num,
   smoothing_filter_converges (3 / 2) 1 0 (1 / 10) (by norm_num) (by norm_num)⟩

/-- C7 counterexample: with button 0x110 already pressed in the bitmask
(value 1), a press event followed by a release event for code 0x110
yields bitmask 0, not the original value — the press/release round trip
does not restore the prior state when the bit was already set. -/
theorem button_roundtrip_cex :
    ((sBtnEx.wl_pointer_listener_button 0x110 true).wl_pointer_listener_button 0x110
        false).m_state.buttons ≠ sBtnEx.m_state.buttons := by decide

/-- C7 amended: for a button code in the defined-behaviour range
(`0x110 ≤ code < 0x110 + 32`), a bitmask below `2^32` whose bit
`code - 0x110` is clear, a press followed by a release restores the
bitmask exactly; moreover press sets bit `code - 0x110` and release
clears it. -/
theorem button_press_release (s : Seat) (code : Nat)
    (h1 : 0x110 ≤ code) (h2 : code < 0x110 + 32) (h3 : s.m_state.buttons < U32)
    (h4 : s.m_state.buttons.testBit (code - 0x110) = false) :
    ((s.wl_pointer_listener_button code true).wl_pointer_listener_button code
        false).m_state.buttons = s.m_state.buttons ∧
    (s.wl_pointer_listener_button code true).m_state.buttons.testBit (code - 0x110) = true ∧
    (s.wl_pointer_listener_button code false).m_state.buttons.testBit (code - 0x110) = false := by
  have hcu : code < U32 := by simp only [U32]; omega
  have hb : buttonBit code = code - 0x110 := buttonBit_eq code h1 hcu
  have hi : code - 0x110 < 32 := by omega
  have hpow : 2 ^ (code - 0x110) < U32 := by
    simp only [U32]
    exact Nat.pow_lt_pow_right (by norm_num) hi
  have hmod : (1 <<< buttonBit code) % U32 = 2 ^ (code - 0x110) := by
    rw [hb, Nat.one_shiftLeft, Nat.mod_eq_of_lt hpow]
  have hor : s.m_state.buttons ||| 2 ^ (code - 0x110) < U32 :=
    Nat.or_lt_two_pow h3 hpow
  have hpress : (s.wl_pointer_listener_button code true).m_state.buttons =
      s.m_state.buttons ||| 2 ^ (code - 0x110) := by
    show (s.m_state.buttons ||| ((1 <<< buttonBit code) % U32)) % U32 =
      s.m_state.buttons ||| 2 ^ (code - 0x110)
    rw [hmod, Nat.mod_eq_of_lt hor]
  have hmask : (s.wl_pointer_listener_button code false).m_state.buttons =
      s.m_state.buttons &&& ((U32 - 1) ^^^ 2 ^ (code - 0x110)) := by
    show s.m_state.buttons &&& ((U32 - 1) ^^^ ((1 <<< buttonBit code) % U32)) =
      s.m_state.buttons &&& ((U32 - 1) ^^^ 2 ^ (code - 0x110))
    rw [hmod]
  have hrel : ((s.wl_pointer_listener_button code true).wl_pointer_listener_button code
      false).m_state.buttons =
      (s.m_state.buttons ||| 2 ^ (code - 0x110)) &&& ((U32 - 1) ^^^ 2 ^ (code - 0x110)) := by
    show (s.wl_pointer_listener_button code true).m_state.buttons &&&
        ((U32 - 1) ^^^ ((1 <<< buttonBit code) % U32)) =
      (s.m_state.buttons ||| 2 ^ (code - 0x110)) &&& ((U32 - 1) ^^^ 2 ^ (code - 0x110))
    rw [hmod, hpress]
  refine ⟨?_, ?_, ?_⟩
  · rw [hrel]
    exact lor_mask_cancel s.m_state.buttons (code - 0x110) hi h3 h4
  · rw [hpress]
    simp [Nat.testBit_or, Nat.testBit_two_pow_self]
  · rw [hmask]
    simp only [Nat.testBit_and, Nat.testBit_xor, show U32 - 1 = 2 ^ 32 - 1 from rfl,
      Nat.testBit_two_pow_sub_one, Nat.testBit_two_pow_self, h4]
    simp [hi]

/-- C7 witness: bitmask 4 (bit 0 clear), code 0x110: press then release
restores 4. -/
theorem button_press_release_witness :
    (0x110 ≤ 0x110 ∧ 0x110 < 0x110 + 32 ∧ sBtn4Ex.m_state.buttons < U32 ∧
      sBtn4Ex.m_state.buttons.testBit (0x110 - 0x110) = false) ∧
    ((sBtn4Ex.wl_pointer_listener_button 0x110 true).wl_pointer_listener_button 0x110
        false).m_state.buttons = sBtn4Ex.m_state.buttons :=
  ⟨⟨by decide, by decide, by decide, by decide⟩,
   (button_press_release sBtn4Ex 0x110 (by decide) (by decide) (by decide) (by decide)).1⟩

/-- C8: with the pointer-inside-surface flag clear a motion event leaves
the device (hence its cursor) unchanged; with it set, positive window
dimensions `(W,H)` give cursor `((x/W*2-1)*scale_x, (y/H*2-1)*scale_y)`,
and non-positive dimensions give `(0,0)`. -/
theorem motion_cursor_normalization (s : Seat) (win_width win_height : Int)
    (scale_x scale_y x y : ℚ) :
    (s.m_in_surface = false →
      s.wl_pointer_listener_motion win_width win_height scale_x scale_y x y = s) ∧
    (s.m_in_surface = true → 0 < win_width → 0 < win_height →
      (s.wl_pointer_listener_motion win_width win_height scale_x scale_y x y).m_state.cursor =
        ⟨(x / (win_width : ℚ) * 2 - 1) * scale_x, (y / (win_height : ℚ) * 2 - 1) * scale_y⟩) ∧
    (s.m_in_surface = true → (win_width ≤ 0 ∨ win_height ≤ 0) →
      (s.wl_pointer_listener_motion win_width win_height scale_x scale_y x y).m_state.cursor =
        ⟨0, 0⟩) := by
  refine ⟨fun hin => ?_, fun hin hw hh => ?_, fun hin hwh => ?_⟩
  · simp [Seat.wl_pointer_listener_motion, hin]
  · simp [Seat.wl_pointer_listener_motion, hin, hw, hh]
  · have hn : ¬(0 < win_width ∧ 0 < win_height) := by
      rcases hwh with h | h
      · exact fun hc => absurd hc.1 (not_lt.mpr h)
      · exact fun hc => absurd hc.2 (not_lt.mpr h)
    simp [Seat.wl_pointer_listener_motion, hin, hn]

/-- C8 witness: inside the surface, a 640x480 window, unit scale, raw
position (320, 120). -/
theorem motion_cursor_normalization_witness :
    (({ Seat.initial 0 with m_in_surface := true } : Seat).m_in_surface = true ∧
      (0 : Int) < 640 ∧ (0 : Int) < 480) ∧
    (({ Seat.initial 0 with m_in_surface := true } : Seat).wl_pointer_listener_motion 640 480
        1 1 320 120).m_state.cursor =
      ⟨((320 : ℚ) / (640 : ℚ) * 2 - 1) * 1, ((120 : ℚ) / (480 : ℚ) * 2 - 1) * 1⟩ :=
  ⟨⟨rfl, by decide, by decide⟩,
   (motion_cursor_normalization _ 640 480 1 1 320 120).2.1 rfl (by decide) (by decide)⟩

/-- C9: with `sym0` the keycode's resolved first keysym — if `sym0` is
the no-symbol sentinel or above 0x0110ffff the resolved name is empty;
lowercase ASCII letters (97–122) are name-looked-up as `sym0 - 32`; a
resolved name of length ≥ 64 (does not fit the 64-byte buffer) yields the
empty name; and an empty resolved name means no `Key` control for that
keycode is synthesized. -/
theorem key_name_resolution (km : Keymap) (keycode : Nat) (sym0 : Nat)
    (hsym : (km.syms.lookup keycode).getD XKB_KEY_NoSymbol = sym0) :
    (sym0 = XKB_KEY_NoSymbol ∨ 0x0110ffff < sym0 → Key.resolveName km keycode = "") ∧
    (97 ≤ sym0 → sym0 ≤ 122 →
      Key.resolveName km keycode =
        (match km.names.lookup (sym0 - 32) with
         | none => ""
         | some n => if n.length < 64 then n else "")) ∧
    (∀ n, km.names.lookup (foldSym sym0) = some n → 64 ≤ n.length →
      Key.resolveName km keycode = "") ∧
    (Key.resolveName km keycode = "" → ∀ nm, Control.key nm keycode ∉ keyControls km) := by
  refine ⟨fun h => ?_, fun h97 h122 => ?_, fun n hn hlen => ?_, fun h0 nm hmem => ?_⟩
  · rw [resolveName_foldSym km keycode, hsym]
    rcases h with h | h
    · subst h
      rfl
    · have hf : foldSym sym0 = sym0 := by
        unfold foldSym
        rw [if_neg]
        omega
      rw [hf, if_pos (Or.inr h)]
  · have hf : foldSym sym0 = sym0 - 32 := by
      unfold foldSym
      rw [if_pos ⟨h97, h122⟩]
    have h2 : ¬(sym0 - 32 = XKB_KEY_NoSymbol ∨ 0x0110ffff < sym0 - 32) := by
      simp only [XKB_KEY_NoSymbol]
      omega
    rw [resolveName_foldSym km keycode, hsym, hf, if_neg h2]
  · rw [resolveName_foldSym km keycode, hsym]
    split
    · rfl
    · rw [hn]
      simp
      omega
  · simp only [keyControls, List.mem_filterMap] at hmem
    obtain ⟨i, hi2, hsome⟩ := hmem
    by_cases hlen2 : (Key.resolveName km i).length ≠ 0
    · rw [if_pos hlen2] at hsome
      have hinj := Option.some.inj hsome
      have h1 : Key.resolveName km i = nm ∧ i = keycode := by
        have he := Control.key.injEq (Key.resolveName km i) i nm keycode
        rw [he] at hinj
        exact hinj
      obtain ⟨ha, hb⟩ := h1
      subst hb
      exact hlen2 (by simp [h0])
    · rw [if_neg hlen2] at hsome
      exact Option.noConfusion hsome

/-- C9 witness: keycode 10 resolves to keysym 97 (lowercase a), which is
folded to 65 and looked up, giving name "A". -/
theorem key_name_resolution_witness :
    ((kmLetterEx.syms.lookup 10).getD XKB_KEY_NoSymbol = 97) ∧
    (Key.resolveName kmLetterEx 10 =
      (match kmLetterEx.names.lookup (97 - 32) with
       | none => ""
       | some n => if n.length < 64 then n else "")) :=
  ⟨by decide, (key_name_resolution kmLetterEx 10 97 (by decide)).2.1 (by decide) (by decide)⟩

/-- C10 counterexample: a seat constructed with a keymap whose
`max_keycode` is 255 allocates a 32-byte bitmap (a reachable device
state), yet the key handler for event code 1000 — byte index
`(1000+8)/8 = 126` — falls outside the bitmap: the out-of-bounds branch
of the total embedding is reached. -/
theorem key_handler_oob_cex :
    sKbdEx.m_state.keyboard = some (List.replicate (255 / 8 + 1) 0) ∧
    sKbdEx.wl_keyboard_listener_key 1000 true = none :=
  ⟨rfl, rfl⟩

/-- C10 amended: keyboard-capability negotiation with a compiled keymap
of positive `max_keycode` allocates a bitmap of `max_keycode / 8 + 1`
bytes; and for any seat whose bitmap is allocated with that length, a key
event with `key + 8 ≤ max_keycode` (and `max_keycode < 2^32`) stays in
bounds — the handler succeeds. Codes beyond the keymap range, or a device
whose keymap never compiled (null bitmap), are not covered: there the
out-of-bounds/null branch is reachable. -/
theorem key_handler_in_bounds (s0 : Seat) (caps : Nat) (km : Keymap)
    (h0 : s0.m_constructed = false) (h1 : s0.m_keyboard = false)
    (h2 : caps &&& WL_SEAT_CAPABILITY_KEYBOARD ≠ 0) (h3 : 0 < km.max_keycode)
    (s : Seat) (bytes : List Nat) (key : Nat) (pressed : Bool)
    (h4 : s.m_state.keyboard = some bytes)
    (h5 : bytes.length = km.max_keycode / 8 + 1)
    (h6 : key + 8 ≤ km.max_keycode) (h7 : km.max_keycode < U32) :
    ((s0.wl_seat_listener_capabilities caps (some km)).m_state.keyboard =
      some (List.replicate (km.max_keycode / 8 + 1) 0)) ∧
    (s.wl_keyboard_listener_key key pressed).isSome = true := by
  constructor
  · by_cases hp : s0.m_pointer = false ∧ caps &&& WL_SEAT_CAPABILITY_POINTER ≠ 0
    · simp [Seat.wl_seat_listener_capabilities, Seat.wl_keyboard_listener_keymap,
        h0, h1, h2, h3, hp]
    · simp [Seat.wl_seat_listener_capabilities, Seat.wl_keyboard_listener_keymap,
        h0, h1, h2, h3, hp]
  · have hk : (key % U32 + 8) % U32 = key + 8 := by
      simp only [U32] at *
      omega
    have hlt : (key % U32 + 8) % U32 / 8 < bytes.length := by
      rw [hk, h5]
      omega
    simp only [Seat.wl_keyboard_listener_key, h4, hlt, if_true]
    rfl

/-- C10 witness: a seat with the 32-byte bitmap accepts key code 100
(byte index 13). -/
theorem key_handler_in_bounds_witness :
    ((Seat.initial 4).m_constructed = false ∧ (Seat.initial 4).m_keyboard = false ∧
      2 &&& WL_SEAT_CAPABILITY_KEYBOARD ≠ 0 ∧ 0 < kmWideEx.max_keycode ∧
      sBoundsEx.m_state.keyboard = some (List.replicate 32 0) ∧
      (List.replicate 32 (0 : Nat)).length = kmWideEx.max_keycode / 8 + 1 ∧
      100 + 8 ≤ kmWideEx.max_keycode ∧ kmWideEx.max_keycode < U32) ∧
    (sBoundsEx.wl_keyboard_listener_key 100 true).isSome = true :=
  ⟨⟨rfl, rfl, by decide, by decide, rfl, by decide, by decide, by decide⟩,
   (key_handler_in_bounds (Seat.initial 4) 2 kmWideEx rfl rfl (by decide) (by decide)
      sBoundsEx (List.replicate 32 0) 100 true rfl (by decide) (by decide) (by decide)).2⟩

end WaylandCIFace
